import Mathlib

/-!
Shallow embedding of the WASM objcopy core
(`llvm/lib/ObjCopy/wasm/WasmObject.cpp` together with its header and
`WasmReader.cpp`): the in-memory object model, `Object::removeSections`,
the `SectionWriter` buffer, `Object::finalizeLinking`, and the
data-segment copy step of `Reader::create`.

Machine integers are modelled as `Nat` with explicit reductions modulo
`2 ^ 32` / `2 ^ 64` at the points where the C++ performs wrapping
arithmetic on `uint32_t` / `size_t` / `uint64_t` values.
-/

namespace WasmObjCopy

/-- `2 ^ 32`, the modulus of `uint32_t` arithmetic. -/
def u32Mod : Nat := 4294967296

/-- `2 ^ 64`, the modulus of `size_t` / `uint64_t` arithmetic. -/
def u64Mod : Nat := 18446744073709551616

/-- `a - b` in 64-bit wrapping arithmetic (both arguments reduced mod `2 ^ 64`). -/
def sub64 (a b : Nat) : Nat := (a % u64Mod + (u64Mod - b % u64Mod)) % u64Mod

/-- `llvm::wasm::WASM_SYMBOL_UNDEFINED` (0x10). -/
def symUndefinedFlag : Nat := 16

/-- `llvm::wasm::WASM_SYMBOL_EXPLICIT_NAME` (0x40). -/
def symExplicitNameFlag : Nat := 64

/-- `llvm::wasm::WasmMetadataVersion` (2). -/
def wasmMetadataVersion : Nat := 2

/-- `llvm::wasm::WASM_SYMBOL_TABLE` subsection tag (8). -/
def wasmSymbolTableTag : Nat := 8

/-- `llvm::wasm::WASM_SEGMENT_INFO` subsection tag (5). -/
def wasmSegmentInfoTag : Nat := 5

/-- `llvm::wasm::WASM_INIT_FUNCS` subsection tag (6). -/
def wasmInitFuncsTag : Nat := 6

/-- `llvm::wasm::WASM_COMDAT_INFO` subsection tag (7). -/
def wasmComdatInfoTag : Nat := 7

/-- The six `WASM_SYMBOL_TYPE_*` kinds of `llvm::wasm::WasmSymbolInfo::Kind`.
The enum has exactly these values, so the `default: llvm_unreachable` arms of
the C++ switches have no counterpart in the model. -/
inductive SymKind where
  | function
  | data
  | global
  | section
  | tag
  | table
deriving DecidableEq, Repr

/-- Numeric value of each `WASM_SYMBOL_TYPE_*` enumerator. -/
def SymKind.code : SymKind → Nat
  | .function => 0
  | .data => 1
  | .global => 2
  | .section => 3
  | .tag => 4
  | .table => 5

/-- `llvm::wasm::WasmDataReference` (`Segment : uint32`, `Offset : uint64`,
`Size : uint64`). -/
structure WasmDataReference where
  segment : Nat
  offset : Nat
  size : Nat
deriving DecidableEq, Repr

/-- The fields of `llvm::wasm::WasmSymbolInfo` that `WasmObject.cpp` reads or
writes: `Name` (modelled as its byte list), `Kind`, `Flags`, `ElementIndex`
(a `uint32_t`) and `DataRef`. -/
structure WasmSymbolInfo where
  name : List Nat
  kind : SymKind
  flags : Nat
  elementIndex : Nat
  dataRef : WasmDataReference
deriving DecidableEq, Repr

/-- `llvm::object::WasmSymbol`; only its `Info` member is used by the code
under verification. `WasmSymbol::isTypeSection()` tests
`Info.Kind == WASM_SYMBOL_TYPE_SECTION`. -/
structure WasmSymbol where
  info : WasmSymbolInfo
deriving DecidableEq, Repr

/-- `objcopy::wasm::Section` from `WasmObject.h`: an opaque blob with a type
tag, an optional on-disk size-field width, a name, contents (modelled as the
byte list) and an optional back-reference to its relocation section. -/
structure Section where
  sectionType : Nat
  headerSecSizeEncodingLen : Option Nat
  name : List Nat
  contents : List Nat
  relocationSectionIdx : Option Nat
deriving DecidableEq, Repr

/-- Placeholder section used only to totalise the out-of-bounds
`OpaqueSections[I]` accesses that are undefined behaviour in the C++. -/
def defaultSection : Section :=
  { sectionType := 0, headerSecSizeEncodingLen := none, name := [],
    contents := [], relocationSectionIdx := none }

/-- `llvm::wasm::WasmInitFunc`. -/
structure WasmInitFunc where
  priority : Nat
  symbol : Nat
deriving DecidableEq, Repr

/-- The fields of `llvm::object::WasmSegment::Data` that `finalizeLinking`
reads: `Name`, `Alignment`, `LinkingFlags`. -/
structure WasmDataSegmentData where
  name : List Nat
  alignment : Nat
  linkingFlags : Nat
deriving DecidableEq, Repr

/-- `llvm::object::WasmSegment`; only the `Data` member is read. -/
structure WasmSegment where
  data : WasmDataSegmentData
deriving DecidableEq, Repr

/-- The members of `llvm::wasm::WasmLinkingData` that `WasmObject.cpp` uses:
`InitFunctions` and `Comdats` (a list of names). -/
structure WasmLinkingData where
  initFunctions : List WasmInitFunc
  comdats : List (List Nat)
deriving DecidableEq, Repr

/-- `llvm::wasm::WasmObjectHeader` (`Magic`, `Version`). -/
structure WasmObjectHeader where
  magic : List Nat
  version : Nat
deriving DecidableEq, Repr

/-- `objcopy::wasm::Object`: header, symbol table, ordered opaque-section
list, linking metadata and data-segment list.  The `LinkingSection` raw
pointer and the `OwnedContents` buffer list carry no information read by the
algorithms under verification and are not modelled. -/
structure Object where
  header : WasmObjectHeader
  symbols : List WasmSymbol
  opaqueSections : List Section
  linkingData : WasmLinkingData
  dataSegments : List WasmSegment
deriving DecidableEq, Repr

/-! ## LEB128 encoding (`llvm/Support/LEB128.h`)

`encodeULEB128(Value, p, PadTo)` emits the minimal unsigned LEB128 encoding
and, when the minimal form is shorter than `PadTo`, sets the continuation bit
on every minimal byte, emits `0x80` filler up to `PadTo - 1` bytes and a
final `0x00`.  `ulebMinAux` uses the value itself as structural fuel (each
step divides by 128, so `v` steps always suffice). -/

def ulebMinAux : Nat → Nat → List Nat
  | 0, v => [v % 128]
  | fuel + 1, v => if v < 128 then [v] else (v % 128 + 128) :: ulebMinAux fuel (v / 128)

/-- Minimal unsigned LEB128 encoding of `v`. -/
def ulebMin (v : Nat) : List Nat := ulebMinAux v v

/-- `llvm::encodeULEB128 v` with padding parameter `padTo`. -/
def encodeULEB (padTo v : Nat) : List Nat :=
  let m := ulebMin v
  if padTo ≤ m.length then m
  else m.map (fun b => b ||| 128) ++ List.replicate (padTo - m.length - 1) 128 ++ [0]

/-! ## `Object::removeSections` -/

/-- First loop of `Object::removeSections` (marking): walk the sections from
index `i` upward; a section satisfying `toRemove` pushes its own index and,
when present, its `RelocationSectionIdx`. -/
def collectMarked (toRemove : Section → Bool) : List Section → Nat → List Nat
  | [], _ => []
  | s :: rest, i =>
    (if toRemove s then
      i :: (match s.relocationSectionIdx with | some r => [r] | none => [])
    else []) ++ collectMarked toRemove rest (i + 1)

/-- The sorted, deduplicated list of marked section indices
(`std::sort` followed by `std::unique`/`erase`). -/
def markedSections (toRemove : Section → Bool) (sections : List Section) : List Nat :=
  ((collectMarked toRemove sections 0).insertionSort (· ≤ ·)).dedup

/-- The trailing loop of the Function/Global/Tag/Table and Data cases:
`for (size_t I = *Upper; I < MarkedSections.size(); I++)` subtracts
`OpaqueSections[I].Contents.size() - HeaderSize` from `Info.DataRef.Offset`
(all in wrapping `size_t`/`uint64_t` arithmetic).  Note the C++ indexes
`OpaqueSections` with a position `I` of `MarkedSections`, and when
`Upper == MarkedSections.end()` the dereference `*Upper` reads past the end
of the vector (undefined behaviour); the model takes the loop as not
executing in that case.  Either way the loop only ever writes
`Info.DataRef.Offset`, never `ElementIndex` and never a section. -/
def patchOffsetLoop (sections : List Section) (marked : List Nat) (u : Nat)
    (offset : Nat) : Nat :=
  match marked.get? u with
  | none => offset
  | some start =>
    (List.range' start (marked.length - start)).foldl
      (fun acc i =>
        let s := sections.getD i defaultSection
        sub64 acc (sub64 s.contents.length (s.headerSecSizeEncodingLen.getD 5)))
      offset

/-- One iteration of the symbol-patching loop of `Object::removeSections`.
`u` is the index returned by `std::upper_bound(Marked.begin(), Marked.end(),
Info.ElementIndex)`, i.e. the number of marked indices `≤ ElementIndex`
(the list is sorted).  The C++ then computes
`Info.ElementIndex -= std::distance(MarkedSections.end(), Upper)`, and
`std::distance(end, Upper) = u - length` is non-positive, so the assignment
adds `length - u` (the number of marked indices strictly greater than
`ElementIndex`) in `uint32_t` arithmetic. -/
def patchSymbol (marked : List Nat) (sections : List Section)
    (sym : WasmSymbol) : WasmSymbol :=
  let info := sym.info
  let u := marked.countP (fun i => decide (i ≤ info.elementIndex))
  match info.kind with
  | .function | .global | .tag | .table =>
    { sym with info :=
      { info with
        elementIndex := (info.elementIndex + (marked.length - u)) % u32Mod,
        dataRef :=
          { info.dataRef with
            offset := patchOffsetLoop sections marked u info.dataRef.offset } } }
  | .data =>
    if info.flags &&& symUndefinedFlag = 0 then
      { sym with info :=
        { info with
          dataRef :=
            { info.dataRef with
              offset := patchOffsetLoop sections marked u info.dataRef.offset } } }
    else sym
  | .section =>
    { sym with info :=
      { info with elementIndex := (info.elementIndex + (marked.length - u)) % u32Mod } }

/-- The cascade scan: indices of the (already renumbered) symbols with
`isTypeSection()` whose current `ElementIndex` is found by
`std::binary_search` in the sorted marked list (membership). -/
def collectSectionSymbols (marked : List Nat) : List WasmSymbol → Nat → List Nat
  | [], _ => []
  | s :: rest, i =>
    (if s.info.kind = SymKind.section ∧ s.info.elementIndex ∈ marked then [i] else []) ++
      collectSectionSymbols marked rest (i + 1)

/-- `for (size_t I : reverse(Indices)) Xs.erase(Xs.begin() + I);` —
erase the listed positions from highest to lowest. -/
def eraseReverse (l : List α) (indices : List Nat) : List α :=
  indices.reverse.foldl (fun acc i => acc.eraseIdx i) l

/-- `Object::removeSections` (`WasmObject.cpp`): mark, early-return when
nothing is marked, renumber/patch every symbol, physically erase the marked
sections from highest index down, then erase the Section-kind symbols whose
renumbered `ElementIndex` is a marked index.  The final `printf` loop does
not change the object and is omitted. -/
def removeSections (toRemove : Section → Bool) (o : Object) : Object :=
  let marked := markedSections toRemove o.opaqueSections
  if marked.isEmpty then o
  else
    let patched := o.symbols.map (patchSymbol marked o.opaqueSections)
    let newSections := eraseReverse o.opaqueSections marked
    let markedSymbols := collectSectionSymbols marked patched 0
    let newSymbols := eraseReverse patched markedSymbols
    { o with opaqueSections := newSections, symbols := newSymbols }

/-! ## `SectionWriter` (`WasmObject.cpp`)

The writer is a byte vector `Buffer`, a write position `Cursor` and a stack
of pending-subsection offsets.  `Buffer.size()` can exceed `Cursor`
(`writeULEB128` resizes to `Cursor + 10`), and `std::vector::resize` fills
new elements with value-initialised zero bytes, so the physical buffer is
fully deterministic and is modelled exactly. -/

/-- `std::vector<uint8_t>::resize n`: truncate or pad with zero bytes to
length exactly `n`. -/
def listResize (l : List Nat) (n : Nat) : List Nat :=
  if n ≤ l.length then l.take n else l ++ List.replicate (n - l.length) 0

/-- Overwrite the bytes of `l` at positions `[off, off + bs.length)` with
`bs` (what `encodeULEB128(Value, Buffer.data() + off)` does). -/
def overwriteAt (l : List Nat) (off : Nat) (bs : List Nat) : List Nat :=
  l.take off ++ bs ++ l.drop (off + bs.length)

structure SectionWriter where
  buffer : List Nat
  subsections : List Nat
  cursor : Nat
deriving DecidableEq, Repr

/-- The empty `SectionWriter()`. -/
def SectionWriter.init : SectionWriter := ⟨[], [], 0⟩

/-- `writeULEB128(Value, PadTo)`: `Buffer.resize(Cursor + 10)` then encode at
`Buffer.data() + Cursor` and advance the cursor by the encoded length. -/
def SectionWriter.writeULEB (w : SectionWriter) (v padTo : Nat) : SectionWriter :=
  let enc := encodeULEB padTo v
  { w with
    buffer := overwriteAt (listResize w.buffer (w.cursor + 10)) w.cursor enc,
    cursor := w.cursor + enc.length }

/-- `insertULEB128(Value, Offset)`: overwrite in place with the minimal
encoding (no padding), without moving the cursor. -/
def SectionWriter.insertULEB (w : SectionWriter) (v off : Nat) : SectionWriter :=
  { w with buffer := overwriteAt w.buffer off (encodeULEB 0 v) }

/-- `writeVaruint32` forwards to `writeULEB128` (its `assert` is a no-op in
release builds and checks nothing the claims depend on). -/
def SectionWriter.writeVaruint32 (w : SectionWriter) (v : Nat) : SectionWriter :=
  w.writeULEB v 0

/-- `writeBytes`: `Buffer.insert(Buffer.begin() + Cursor, ...)` — insert at
the cursor, shifting any bytes beyond it. -/
def SectionWriter.writeBytes (w : SectionWriter) (bs : List Nat) : SectionWriter :=
  { w with
    buffer := w.buffer.take w.cursor ++ bs ++ w.buffer.drop w.cursor,
    cursor := w.cursor + bs.length }

/-- `writeString(Str)` is `writeBytes(Str.bytes())`: the raw bytes of the
string, with no length prefixed and no terminator. -/
def SectionWriter.writeStr (w : SectionWriter) (s : List Nat) : SectionWriter :=
  w.writeBytes s

/-- `startSubsection(Kind)`: `Buffer.push_back(Kind)` (at the physical end of
the buffer, not at the cursor), `Cursor += 1`, push the cursor, then write a
5-byte padded zero placeholder. -/
def SectionWriter.startSubsection (w : SectionWriter) (kind : Nat) : SectionWriter :=
  let w1 : SectionWriter :=
    ⟨w.buffer ++ [kind], (w.cursor + 1) :: w.subsections, w.cursor + 1⟩
  w1.writeULEB 0 5

/-- `endSubsection()`: pop the top offset and overwrite it in place with the
minimal (unpadded) encoding of `Cursor - Offset`.  The returned length feeds
only a `printf` and is dropped.  Popping an empty stack is undefined
behaviour in the C++ and never happens in `finalizeLinking`; the model
returns the writer unchanged there. -/
def SectionWriter.endSubsection (w : SectionWriter) : SectionWriter :=
  match w.subsections with
  | [] => w
  | off :: rest =>
    { w with
      buffer := overwriteAt w.buffer off (encodeULEB 0 (w.cursor - off)),
      subsections := rest }

/-- `finalize()`: `Buffer.resize(Cursor)` and return the buffer. -/
def SectionWriter.finalize (w : SectionWriter) : List Nat :=
  listResize w.buffer w.cursor

/-- The bytes of the logical output stream written so far: the first
`Cursor` bytes of the buffer (exactly what `finalize` keeps). -/
def SectionWriter.logical (w : SectionWriter) : List Nat :=
  w.buffer.take w.cursor

/-! ## `Object::finalizeLinking` -/

/-- The body of the symbol-table loop of `finalizeLinking` for one symbol:
kind byte and flags as ULEB128, then the kind-specific fields. -/
def writeSymbolEntry (w : SectionWriter) (sym : WasmSymbol) : SectionWriter :=
  let info := sym.info
  let w := w.writeULEB info.kind.code 0
  let w := w.writeULEB info.flags 0
  match info.kind with
  | .function | .global | .tag | .table =>
    let w := w.writeULEB info.elementIndex 0
    if info.flags &&& symUndefinedFlag = 0 ∨ info.flags &&& symExplicitNameFlag ≠ 0 then
      w.writeStr info.name
    else w
  | .data =>
    let w := w.writeStr info.name
    if info.flags &&& symUndefinedFlag = 0 then
      (((w.writeULEB info.dataRef.segment 0).writeULEB info.dataRef.offset 0).writeULEB
        info.dataRef.size 0)
    else w
  | .section => w.writeULEB info.elementIndex 0

/-- The `if (!Symbols.empty())` block of `finalizeLinking`.  The surrounding
`printf` calls change no state and are omitted.  The object is only read. -/
def symbolTableStep (w : SectionWriter) (o : Object) : SectionWriter × Object :=
  if o.symbols.isEmpty then (w, o)
  else
    let w := w.startSubsection wasmSymbolTableTag
    let w := w.writeULEB o.symbols.length 0
    let w := o.symbols.foldl writeSymbolEntry w
    (w.endSubsection, o)

/-- The per-segment writes of the Segment Info block: `writeVaruint32` of the
count, then for each segment `writeString(Name)` (raw bytes), alignment and
linking flags as ULEB128. -/
def writeSegmentInfoEntries (w : SectionWriter) (segs : List WasmSegment) : SectionWriter :=
  segs.foldl
    (fun w seg =>
      ((w.writeStr seg.data.name).writeULEB seg.data.alignment 0).writeULEB
        seg.data.linkingFlags 0)
    (w.writeVaruint32 segs.length)

/-- The `if (!DataSegments.empty())` block of `finalizeLinking`. -/
def segmentInfoStep (w : SectionWriter) (o : Object) : SectionWriter × Object :=
  if o.dataSegments.isEmpty then (w, o)
  else
    ((writeSegmentInfoEntries (w.startSubsection wasmSegmentInfoTag) o.dataSegments).endSubsection,
      o)

/-- The `if (!LinkingData.InitFunctions.empty())` block of `finalizeLinking`. -/
def initFuncsStep (w : SectionWriter) (o : Object) : SectionWriter × Object :=
  if o.linkingData.initFunctions.isEmpty then (w, o)
  else
    let w := w.startSubsection wasmInitFuncsTag
    let w := w.writeULEB o.linkingData.initFunctions.length 0
    let w := o.linkingData.initFunctions.foldl
      (fun w f => (w.writeULEB f.priority 0).writeULEB f.symbol 0) w
    (w.endSubsection, o)

/-- The `if (!LinkingData.Comdats.empty())` block of `finalizeLinking`: per
comdat name the raw bytes, a zero flags varint and the name length as a
varint (the `// FIXME` entry list is never emitted). -/
def comdatInfoStep (w : SectionWriter) (o : Object) : SectionWriter × Object :=
  if o.linkingData.comdats.isEmpty then (w, o)
  else
    let w := w.startSubsection wasmComdatInfoTag
    let w := w.writeULEB o.linkingData.comdats.length 0
    let w := o.linkingData.comdats.foldl
      (fun w c => ((w.writeStr c).writeULEB 0 0).writeULEB c.length 0) w
    (w.endSubsection, o)

/-- `Object::finalizeLinking` with the object threaded as explicit state:
the version varint, then the four conditional subsections, then
`Writer.finalize()`.  No statement of the method writes to the object, which
the state threading makes explicit. -/
def finalizeLinkingSt (o : Object) : List Nat × Object :=
  let w := SectionWriter.init.writeVaruint32 wasmMetadataVersion
  let p := symbolTableStep w o
  let p := segmentInfoStep p.1 p.2
  let p := initFuncsStep p.1 p.2
  let p := comdatInfoStep p.1 p.2
  (p.1.finalize, p.2)

/-! ## The data-segment copy step of `Reader::create` (`WasmReader.cpp`)

```cpp
Obj->DataSegments.reserve(WasmObj.dataSegments().size());
llvm::copy(WasmObj.dataSegments(), Obj->DataSegments.begin());
```

`std::vector` is modelled by its abstract state: a `size` and a backing
`storage` whose first `size` elements are the observable contents.
`reserve` enlarges only the backing storage; `llvm::copy` through `begin()`
writes into the backing storage without ever updating `size`. -/

structure CxxVector (α : Type) where
  size : Nat
  storage : List α
deriving DecidableEq, Repr

/-- The observable contents of a `std::vector`: the first `size` elements. -/
def CxxVector.toList (v : CxxVector α) : List α := v.storage.take v.size

/-- `reserve n`: capacity grows (raw storage modelled as filled with `dflt`),
`size` is unchanged. -/
def CxxVector.reserve (v : CxxVector α) (n : Nat) (dflt : α) : CxxVector α :=
  { v with storage := v.storage ++ List.replicate (n - v.storage.length) dflt }

/-- `std::copy(src.begin(), src.end(), v.begin())`: overwrite the backing
storage starting at position 0; `size` is unchanged. -/
def CxxVector.copyToBegin (v : CxxVector α) (src : List α) : CxxVector α :=
  { v with storage := src ++ v.storage.drop src.length }

/-- Raw-capacity filler for `CxxVector WasmSegment`. -/
def blankSegment : WasmSegment := ⟨⟨[], 0, 0⟩⟩

/-- The value of `Obj->DataSegments` produced by `Reader::create` from the
decoder's already-parsed data-segment list (lines 192–193 of
`WasmReader.cpp`): `reserve` to the source size on the fresh empty member
vector, then `llvm::copy` into `begin()`. -/
def readerCopyDataSegments (decoded : List WasmSegment) : List WasmSegment :=
  (CxxVector.copyToBegin
    (CxxVector.reserve ⟨0, []⟩ decoded.length blankSegment) decoded).toList

/-! ## Definitions taken from the specification's words (for comparison) -/

/-- Modelled from the spec: the Segment Info subsection payload as §4.5
describes it — a count varint, then per segment the name as a
length-prefixed byte string (varint byte count, then the raw bytes), an
alignment varint and a flags varint. -/
def segmentInfoPayloadSpec (segs : List WasmSegment) : List Nat :=
  encodeULEB 0 segs.length ++
    segs.flatMap (fun seg =>
      encodeULEB 0 seg.data.name.length ++ seg.data.name ++
        encodeULEB 0 seg.data.alignment ++ encodeULEB 0 seg.data.linkingFlags)

/-! ## Concrete fixtures used by the claim theorems -/

/-- A header (the WASM magic plus version 1); `removeSections` and
`finalizeLinking` never read it. -/
def sampleHeader : WasmObjectHeader := ⟨[0, 97, 115, 109], 1⟩

/-- Empty linking metadata. -/
def emptyLinking : WasmLinkingData := ⟨[], []⟩

/-- A section named `"a"` that no fixture predicate matches. -/
def secPlain : Section := ⟨0, some 5, [97], [1, 2, 3], none⟩

/-- A section named `"x"`, matched by `removeTarget`. -/
def secTarget : Section := ⟨0, some 5, [120], [4, 5, 6, 7, 8, 9], none⟩

/-- Predicate marking exactly the sections named `"x"`. -/
def removeTarget : Section → Bool := fun s => s.name = [120]

/-- A Function-kind symbol with `ElementIndex = 0`. -/
def fnSymbolZero : WasmSymbol := ⟨⟨[102], .function, 0, 0, ⟨0, 0, 0⟩⟩⟩

/-- Object for the C1 failing input: sections `[secPlain, secTarget]` and one
Function symbol with `ElementIndex = 0`. -/
def c1Obj : Object := ⟨sampleHeader, [fnSymbolZero], [secPlain, secTarget], emptyLinking, []⟩

/-- Section `"A"` (index 0), whose relocation section is at index 1. -/
def secA : Section := ⟨0, some 5, [65], [1, 2, 3, 4, 5, 6, 7], some 1⟩

/-- Section `"reloc.A"` (index 1), targeting section 0. -/
def secRelocA : Section := ⟨0, some 5, [114, 101, 108, 111, 99, 46, 65], [0, 9, 9], none⟩

/-- Section `"B"` (index 2). -/
def secB : Section := ⟨0, some 5, [66], [8, 8, 8, 8, 8, 8], none⟩

/-- Predicate of the C2 scenario: section name equals `"A"`. -/
def removeNamedA : Section → Bool := fun s => s.name = [65]

/-- A Function-kind symbol with `ElementIndex = 2` (pointing at `secB`). -/
def fnSymbolTwo : WasmSymbol := ⟨⟨[102], .function, 0, 2, ⟨0, 0, 0⟩⟩⟩

/-- Object of the C2 concrete scenario. -/
def c2Obj : Object := ⟨sampleHeader, [fnSymbolTwo], [secA, secRelocA, secB], emptyLinking, []⟩

/-- A Section-kind symbol with `ElementIndex = 0` (addressing `secPlain`). -/
def sectionSymbolZero : WasmSymbol := ⟨⟨[115], .section, 0, 0, ⟨0, 0, 0⟩⟩⟩

/-- Object for the C3 failing input: sections `[secPlain, secTarget]` and one
Section-kind symbol addressing the unmarked section 0. -/
def c3Obj : Object := ⟨sampleHeader, [sectionSymbolZero], [secPlain, secTarget], emptyLinking, []⟩

/-- A data segment named `"ab"` with alignment 0 and flags 0. -/
def segAB : WasmSegment := ⟨⟨[97, 98], 0, 0⟩⟩

/-- A data segment named `"d"`, the C5 failing input. -/
def segD : WasmSegment := ⟨⟨[100], 1, 2⟩⟩

/-! ## Claim theorems -/

/-- C1.  The claim states that after `removeSections` every live symbol of
kind Function/Global/Tag/Table/Section has `ElementIndex` decreased by the
number of marked section indices strictly below it, and nothing else changes
those indices.  The code instead computes
`std::distance(MarkedSections.end(), Upper)`, a non-positive value, so the
subtraction adds the count of marked indices strictly greater than the
index.  On an object whose second section (index 1) is removed and whose
only symbol is a Function with `ElementIndex = 0`, no marked index is below
0, so the claim requires the index to stay 0 — but the code moves it to 1. -/
theorem c1_elementIndex_not_decremented :
    (removeSections removeTarget c1Obj).symbols.map (fun s => s.info.elementIndex) = [1] ∧
      (removeSections removeTarget c1Obj).symbols.map (fun s => s.info.elementIndex) ≠ [0] := by
  decide

/-- C2.  In the concrete scenario (sections `[A, reloc.A, B]`, `reloc.A`
targeting index 0, one Function symbol with `ElementIndex = 2`, predicate
"name = A") the claim requires both `A` and `reloc.A` to be removed, one
section `[B]` to remain, and the Function symbol's `ElementIndex` to become
0.  The code does remove both sections, but leaves `ElementIndex` at 2
(`upper_bound` is `end`, so `distance(end, Upper) = 0` and nothing is
subtracted), a dangling index past the single remaining section. -/
theorem c2_scenario_elementIndex_stays_dangling :
    (removeSections removeNamedA c2Obj).opaqueSections = [secB] ∧
      (removeSections removeNamedA c2Obj).symbols.map (fun s => s.info.elementIndex) = [2] ∧
      (removeSections removeNamedA c2Obj).symbols.map (fun s => s.info.elementIndex) ≠ [0] := by
  decide

/-- C3.  The claim states the cascade deletes exactly the Section-kind
symbols whose pre-renumbering `ElementIndex` was marked, keeping all others.
The code tests the post-renumbering `ElementIndex` against the marked list:
with marked set `{1}` and a Section symbol originally addressing the
unmarked section 0, the (buggy) renumbering moves its index to 1, the
`binary_search` then finds 1, and the symbol is deleted even though the
claim requires it to be kept. -/
theorem c3_unmarked_section_symbol_deleted :
    markedSections removeTarget c3Obj.opaqueSections = [1] ∧
      sectionSymbolZero.info.elementIndex = 0 ∧
      (removeSections removeTarget c3Obj).symbols = [] := by
  decide

/-- C4.  The claim states the Segment Info payload encodes each segment name
as a length-prefixed byte string (varint byte count, then the raw bytes).
`SectionWriter::writeString` is `writeBytes(Str.bytes())` and emits no
length prefix, so for one segment named `"ab"` the writes of the segment
loop produce `[1, 97, 98, 0, 0]` where the claimed payload is
`[1, 2, 97, 98, 0, 0]`. -/
theorem c4_segment_names_not_length_prefixed :
    (writeSegmentInfoEntries SectionWriter.init [segAB]).logical = [1, 97, 98, 0, 0] ∧
      segmentInfoPayloadSpec [segAB] = [1, 2, 97, 98, 0, 0] ∧
      (writeSegmentInfoEntries SectionWriter.init [segAB]).logical ≠
        segmentInfoPayloadSpec [segAB] := by
  decide

/-- C5.  The claim states `Reader::create` copies the decoder's data-segment
list verbatim into the Object.  The code calls `reserve` (which does not
change the vector's size) and then `llvm::copy` through `begin()` (which
never updates the size), so the Object's data-segment list is observably
empty for every non-empty decoder list; with one decoded segment the result
is `[]`, not `[segD]`. -/
theorem c5_data_segments_not_copied :
    readerCopyDataSegments [segD] = [] ∧ readerCopyDataSegments [segD] ≠ [segD] := by
  decide

/-- When no section satisfies the predicate, the marking loop pushes
nothing, whatever the start index. -/
theorem collectMarked_eq_nil (toRemove : Section → Bool) (ss : List Section) (n : Nat)
    (h : ∀ s ∈ ss, toRemove s = false) : collectMarked toRemove ss n = [] := by
  induction ss generalizing n with
  | nil => rfl
  | cons s rest ih =>
    simp only [collectMarked, h s (List.mem_cons_self s rest)]
    simpa using ih (n + 1) (fun t ht => h t (List.mem_cons_of_mem s ht))

/-- When no section satisfies the predicate, `removeSections` takes the
`if (MarkedSections.empty())` early exit and returns the object unchanged. -/
theorem removeSections_eq_self_of_no_sat (toRemove : Section → Bool) (o : Object)
    (h : ∀ s ∈ o.opaqueSections, toRemove s = false) :
    removeSections toRemove o = o := by
  have hm : markedSections toRemove o.opaqueSections = [] := by
    rw [markedSections, collectMarked_eq_nil toRemove o.opaqueSections 0 h]
    rfl
  simp [removeSections, hm]

/-- C8.  For every object and every predicate satisfied by no section,
`removeSections` marks nothing and returns at the
`if (MarkedSections.empty())` early exit, leaving the object — sections,
symbols, linking metadata, header and data segments — entirely unchanged. -/
theorem c8_removeSections_noop_when_nothing_marked (toRemove : Section → Bool) (o : Object)
    (h : ∀ s ∈ o.opaqueSections, toRemove s = false) :
    removeSections toRemove o = o :=
  removeSections_eq_self_of_no_sat toRemove o h

/-- Witness for C8 at a concrete object with two sections and a symbol,
under the never-true predicate. -/
theorem c8_witness :
    removeSections (fun _ => false) c1Obj = c1Obj :=
  c8_removeSections_noop_when_nothing_marked (fun _ => false) c1Obj (by
    intro s _
    rfl)

/-- C6.  Encoding an object whose symbol, data-segment, init-function and
comdat lists are all empty skips all four subsection blocks, so the output
is exactly the unsigned varint encoding of `WasmMetadataVersion` and
nothing else. -/
theorem c6_empty_linking_metadata_encodes_version_only (o : Object)
    (hs : o.symbols = []) (hd : o.dataSegments = [])
    (hi : o.linkingData.initFunctions = []) (hc : o.linkingData.comdats = []) :
    (finalizeLinkingSt o).1 = encodeULEB 0 wasmMetadataVersion := by
  simp only [finalizeLinkingSt, symbolTableStep, segmentInfoStep, initFuncsStep,
    comdatInfoStep, hs, hd, hi, hc, List.isEmpty_nil, if_true]
  decide

/-- Witness for C6 at the concrete empty object. -/
theorem c6_witness :
    (finalizeLinkingSt ⟨sampleHeader, [], [], emptyLinking, []⟩).1 =
      encodeULEB 0 wasmMetadataVersion :=
  c6_empty_linking_metadata_encodes_version_only
    ⟨sampleHeader, [], [], emptyLinking, []⟩ rfl rfl rfl rfl

/-- C10.  `finalizeLinking` only reads the object: every statement of the
method writes the local `SectionWriter`, never a member, so the object
component threaded through the encoder comes back unchanged — header,
section list, symbol table, linking metadata and data segments included. -/
theorem c10_finalizeLinking_preserves_object (o : Object) :
    (finalizeLinkingSt o).2 = o := by
  simp only [finalizeLinkingSt, symbolTableStep, segmentInfoStep, initFuncsStep,
    comdatInfoStep]
  split <;> split <;> split <;> split <;> rfl

/-! ## Positional erasure lemmas for `removeSections` idempotence -/

/-- Erasing from highest index down is the right fold of `eraseIdx`. -/
theorem eraseReverse_eq_foldr (l : List α) (is : List Nat) :
    eraseReverse l is = is.foldr (fun i acc => acc.eraseIdx i) l := by
  simp [eraseReverse, List.foldl_reverse]

/-- Erasing any set of positions from the empty list yields the empty list. -/
theorem foldr_eraseIdx_nil (is : List Nat) :
    is.foldr (fun i acc => acc.eraseIdx i) ([] : List α) = [] := by
  induction is with
  | nil => rfl
  | cons i rest ih => simp [ih]

/-- Erasing only positive positions from `x :: xs` keeps the head and erases
the predecessor positions from the tail. -/
theorem foldr_eraseIdx_cons (x : α) (xs : List α) (is : List Nat)
    (h : ∀ i ∈ is, 1 ≤ i) :
    is.foldr (fun i acc => acc.eraseIdx i) (x :: xs)
      = x :: (is.map (fun i => i - 1)).foldr (fun i acc => acc.eraseIdx i) xs := by
  induction is with
  | nil => rfl
  | cons i rest ih =>
    have h1 : 1 ≤ i := h i (List.mem_cons_self i rest)
    obtain ⟨n, rfl⟩ : ∃ n, i = n + 1 := ⟨i - 1, by omega⟩
    simp only [List.foldr_cons, List.map_cons]
    rw [ih (fun j hj => h j (List.mem_cons_of_mem _ hj))]
    simp [List.eraseIdx_cons_succ]

/-- If every position whose element satisfies `p` is listed in the strictly
sorted index list `is`, then after erasing the positions of `is` (highest
first) no remaining element satisfies `p`. -/
theorem foldr_eraseIdx_no_sat (p : α → Bool) :
    ∀ (l : List α) (is : List Nat), List.Sorted (· < ·) is →
      (∀ j (h : j < l.length), p (l.get ⟨j, h⟩) = true → j ∈ is) →
      ∀ s ∈ is.foldr (fun i acc => acc.eraseIdx i) l, p s = false := by
  intro l
  induction l with
  | nil =>
    intro is _ _ s hs
    rw [foldr_eraseIdx_nil] at hs
    cases hs
  | cons x xs ih =>
    intro is hsort hpos s hs
    by_cases h0 : 0 ∈ is
    · obtain ⟨i, rest, rfl⟩ : ∃ i rest, is = i :: rest := by
        cases is with
        | nil => cases h0
        | cons a b => exact ⟨a, b, rfl⟩
      have hi0 : i = 0 := by
        rcases List.mem_cons.mp h0 with h | h
        · omega
        · have := (List.sorted_cons.mp hsort).1 0 h
          omega
      subst hi0
      have hrest1 : ∀ j ∈ rest, 1 ≤ j := by
        intro j hj
        have := (List.sorted_cons.mp hsort).1 j hj
        omega
      rw [List.foldr_cons, foldr_eraseIdx_cons x xs rest hrest1,
        List.eraseIdx_cons_zero] at hs
      refine ih (rest.map (fun i => i - 1)) ?_ ?_ s hs
      · rw [List.Sorted, List.pairwise_map]
        refine ((List.sorted_cons.mp hsort).2).imp_of_mem ?_
        intro a b ha hb hlt
        have := hrest1 a ha
        omega
      · intro j hj hp
        have hj' : j + 1 < (x :: xs).length := by
          simpa using Nat.succ_lt_succ hj
        have hp' : p ((x :: xs).get ⟨j + 1, hj'⟩) = true := by
          simpa using hp
        have hm := hpos (j + 1) hj' hp'
        rcases List.mem_cons.mp hm with h | h
        · omega
        · exact List.mem_map.mpr ⟨j + 1, h, by omega⟩
    · have hall1 : ∀ i ∈ is, 1 ≤ i := by
        intro i hi
        rcases Nat.eq_zero_or_pos i with h | h
        · subst h
          exact absurd hi h0
        · exact h
      rw [foldr_eraseIdx_cons x xs is hall1] at hs
      rcases List.mem_cons.mp hs with rfl | hs'
      · rcases Bool.eq_false_or_eq_true (p s) with h | h
        · have h0mem : (0 : Nat) ∈ is := hpos 0 (by simp) (by simpa using h)
          exact absurd h0mem h0
        · exact h
      · refine ih (is.map (fun i => i - 1)) ?_ ?_ s hs'
        · rw [List.Sorted, List.pairwise_map]
          refine hsort.imp_of_mem ?_
          intro a b ha hb hlt
          have := hall1 a ha
          omega
        · intro j hj hp
          have hj' : j + 1 < (x :: xs).length := by
            simpa using Nat.succ_lt_succ hj
          have hp' : p ((x :: xs).get ⟨j + 1, hj'⟩) = true := by
            simpa using hp
          exact List.mem_map.mpr ⟨j + 1, hpos (j + 1) hj' hp', by omega⟩

/-- Every position whose section satisfies the predicate is pushed by the
marking loop (shifted by the running start index). -/
theorem mem_collectMarked_of_sat (toRemove : Section → Bool) :
    ∀ (ss : List Section) (n j : Nat) (h : j < ss.length),
      toRemove (ss.get ⟨j, h⟩) = true → n + j ∈ collectMarked toRemove ss n := by
  intro ss
  induction ss with
  | nil =>
    intro n j h
    exact absurd h (Nat.not_lt_zero j)
  | cons s rest ih =>
    intro n j h hp
    cases j with
    | zero =>
      have hs : toRemove s = true := by simpa using hp
      simp [collectMarked, hs]
    | succ j' =>
      have hmem := ih (n + 1) j' (by simpa using h) (by simpa using hp)
      have h2 : n + (j' + 1) = (n + 1) + j' := by omega
      rw [h2]
      simp only [collectMarked]
      exact List.mem_append_right _ hmem

/-- The sorted deduplicated marked-index list is strictly sorted. -/
theorem markedSections_sorted_lt (toRemove : Section → Bool) (ss : List Section) :
    List.Sorted (· < ·) (markedSections toRemove ss) := by
  have h1 : List.Sorted (· ≤ ·) ((collectMarked toRemove ss 0).insertionSort (· ≤ ·)) :=
    List.sorted_insertionSort (· ≤ ·) _
  have h2 : List.Sorted (· ≤ ·) (markedSections toRemove ss) :=
    h1.sublist (List.dedup_sublist _)
  exact h2.lt_of_le (List.nodup_dedup _)

/-- Every position whose section satisfies the predicate ends up in the
sorted deduplicated marked list. -/
theorem mem_markedSections_of_sat (toRemove : Section → Bool) (ss : List Section)
    (j : Nat) (h : j < ss.length) (hp : toRemove (ss.get ⟨j, h⟩) = true) :
    j ∈ markedSections toRemove ss := by
  have h0 : j ∈ collectMarked toRemove ss 0 := by
    have := mem_collectMarked_of_sat toRemove ss 0 j h hp
    simpa using this
  have h1 : j ∈ (collectMarked toRemove ss 0).insertionSort (· ≤ ·) :=
    (List.perm_insertionSort (· ≤ ·) _).mem_iff.mpr h0
  exact List.mem_dedup.mpr h1

/-- After a `removeSections` pass that marked something, no surviving
section satisfies the predicate: the satisfying positions were all marked
and the erasure removed exactly the marked positions. -/
theorem removeSections_no_sat (toRemove : Section → Bool) (o : Object)
    (h : ¬(markedSections toRemove o.opaqueSections).isEmpty = true) :
    ∀ s ∈ (removeSections toRemove o).opaqueSections, toRemove s = false := by
  have hrem : (removeSections toRemove o).opaqueSections
      = eraseReverse o.opaqueSections (markedSections toRemove o.opaqueSections) := by
    simp [removeSections, h]
  rw [hrem, eraseReverse_eq_foldr]
  exact foldr_eraseIdx_no_sat toRemove o.opaqueSections _
    (markedSections_sorted_lt toRemove o.opaqueSections)
    (fun j hj hp => mem_markedSections_of_sat toRemove o.opaqueSections j hj hp)

/-- C9.  `removeSections` is idempotent: the first pass removes every
section satisfying the predicate, so the second pass marks nothing, takes
the early exit, and returns its input unchanged. -/
theorem c9_removeSections_idempotent (toRemove : Section → Bool) (o : Object) :
    removeSections toRemove (removeSections toRemove o) = removeSections toRemove o := by
  by_cases h : (markedSections toRemove o.opaqueSections).isEmpty = true
  · have h1 : removeSections toRemove o = o := by
      simp [removeSections, h]
    simp only [h1]
  · have hnone : ∀ s ∈ (removeSections toRemove o).opaqueSections, toRemove s = false :=
      removeSections_no_sat toRemove o h
    exact removeSections_eq_self_of_no_sat toRemove (removeSections toRemove o) hnone

/-! ## Logical-stream lemmas for the `SectionWriter` -/

/-- `resize` produces a list of exactly the requested length. -/
theorem length_listResize (l : List Nat) (n : Nat) : (listResize l n).length = n := by
  unfold listResize
  split
  · rw [List.length_take]
    omega
  · rw [List.length_append, List.length_replicate]
    omega

/-- `resize` preserves any prefix that both fits the old list and the new
length. -/
theorem take_listResize (l : List Nat) (n c : Nat) (hc : c ≤ l.length) (hn : c ≤ n) :
    (listResize l n).take c = l.take c := by
  unfold listResize
  split
  · rw [List.take_take, Nat.min_eq_left hn]
  · rw [List.take_append_eq_append_take]
    have h0 : c - l.length = 0 := by omega
    simp [h0]

/-- `writeBytes` keeps the cursor within the physical buffer. -/
theorem writeBytes_inv (w : SectionWriter) (bs : List Nat)
    (h : w.cursor ≤ w.buffer.length) :
    (w.writeBytes bs).cursor ≤ (w.writeBytes bs).buffer.length := by
  simp only [SectionWriter.writeBytes, List.length_append, List.length_take,
    List.length_drop]
  omega

/-- `writeBytes` appends exactly its bytes to the logical output stream. -/
theorem writeBytes_logical (w : SectionWriter) (bs : List Nat)
    (h : w.cursor ≤ w.buffer.length) :
    (w.writeBytes bs).logical = w.logical ++ bs := by
  show (w.buffer.take w.cursor ++ bs ++ w.buffer.drop w.cursor).take (w.cursor + bs.length)
      = w.buffer.take w.cursor ++ bs
  have h1 : (w.buffer.take w.cursor).length = w.cursor := by
    rw [List.length_take]
    omega
  rw [List.append_assoc, List.take_append_eq_append_take, h1,
    List.take_of_length_le (by omega)]
  have h3 : w.cursor + bs.length - w.cursor = bs.length := by omega
  rw [h3, List.take_append_eq_append_take, List.take_length]
  simp

/-- `writeULEB128` keeps the cursor within the physical buffer. -/
theorem writeULEB_inv (w : SectionWriter) (v padTo : Nat)
    (_h : w.cursor ≤ w.buffer.length) :
    (w.writeULEB v padTo).cursor ≤ (w.writeULEB v padTo).buffer.length := by
  simp only [SectionWriter.writeULEB, overwriteAt, List.length_append, List.length_take,
    List.length_drop, length_listResize]
  omega

/-- `writeULEB128` appends exactly the (possibly padded) LEB128 encoding to
the logical output stream. -/
theorem writeULEB_logical (w : SectionWriter) (v padTo : Nat)
    (h : w.cursor ≤ w.buffer.length) :
    (w.writeULEB v padTo).logical = w.logical ++ encodeULEB padTo v := by
  show (overwriteAt (listResize w.buffer (w.cursor + 10)) w.cursor (encodeULEB padTo v)).take
      (w.cursor + (encodeULEB padTo v).length)
    = w.buffer.take w.cursor ++ encodeULEB padTo v
  unfold overwriteAt
  have hb1 : (listResize w.buffer (w.cursor + 10)).length = w.cursor + 10 :=
    length_listResize _ _
  have h1 : ((listResize w.buffer (w.cursor + 10)).take w.cursor).length = w.cursor := by
    rw [List.length_take]
    omega
  rw [List.append_assoc, List.take_append_eq_append_take, h1,
    List.take_of_length_le (by omega)]
  have h3 : w.cursor + (encodeULEB padTo v).length - w.cursor
      = (encodeULEB padTo v).length := by omega
  rw [h3, List.take_append_eq_append_take, List.take_length,
    take_listResize w.buffer (w.cursor + 10) w.cursor h (by omega)]
  simp

/-- An undefined Data symbol, the C7 witness input: flags have the
`WASM_SYMBOL_UNDEFINED` bit, and `dataRef` holds nonzero in-memory values. -/
def undefDataSymbol : WasmSymbol := ⟨⟨[100, 115], .data, 16, 7, ⟨3, 4, 5⟩⟩⟩

/-- C7.  For a Data-kind symbol the encoder writes kind, flags, then always
the name, and then the `dataRef` fields (segment, offset, size, each a
varint) exactly when the symbol is not flagged undefined; when it is flagged
undefined the output is independent of the in-memory `dataRef` value. -/
theorem c7_data_symbol_encoding (w : SectionWriter) (sym : WasmSymbol)
    (hk : sym.info.kind = SymKind.data) (hc : w.cursor ≤ w.buffer.length) :
    (writeSymbolEntry w sym).logical
      = w.logical ++ encodeULEB 0 SymKind.data.code ++ encodeULEB 0 sym.info.flags ++
          sym.info.name ++
          (if sym.info.flags &&& symUndefinedFlag = 0 then
            encodeULEB 0 sym.info.dataRef.segment ++ encodeULEB 0 sym.info.dataRef.offset ++
              encodeULEB 0 sym.info.dataRef.size
          else []) ∧
      (∀ d : WasmDataReference, sym.info.flags &&& symUndefinedFlag ≠ 0 →
        writeSymbolEntry w ⟨{ sym.info with dataRef := d }⟩ = writeSymbolEntry w sym) := by
  constructor
  · have c2 := writeULEB_inv w SymKind.data.code 0 hc
    have c3 := writeULEB_inv _ sym.info.flags 0 c2
    have c4 := writeBytes_inv _ sym.info.name c3
    have c5 := writeULEB_inv _ sym.info.dataRef.segment 0 c4
    have c6 := writeULEB_inv _ sym.info.dataRef.offset 0 c5
    simp only [writeSymbolEntry, hk, SectionWriter.writeStr]
    by_cases hu : sym.info.flags &&& symUndefinedFlag = 0
    · rw [if_pos hu, if_pos hu,
        writeULEB_logical _ sym.info.dataRef.size 0 c6,
        writeULEB_logical _ sym.info.dataRef.offset 0 c5,
        writeULEB_logical _ sym.info.dataRef.segment 0 c4,
        writeBytes_logical _ sym.info.name c3,
        writeULEB_logical _ sym.info.flags 0 c2,
        writeULEB_logical _ SymKind.data.code 0 hc]
      simp [List.append_assoc]
    · rw [if_neg hu, if_neg hu,
        writeBytes_logical _ sym.info.name c3,
        writeULEB_logical _ sym.info.flags 0 c2,
        writeULEB_logical _ SymKind.data.code 0 hc]
      simp [List.append_assoc]
  · intro d hu
    simp only [writeSymbolEntry, hk, SectionWriter.writeStr]
    rw [if_neg hu, if_neg hu]

/-- Witness for C7: the theorem instantiated at the empty writer and a
concrete undefined Data symbol. -/
theorem c7_witness :
    (writeSymbolEntry SectionWriter.init undefDataSymbol).logical
      = SectionWriter.init.logical ++ encodeULEB 0 SymKind.data.code ++
          encodeULEB 0 undefDataSymbol.info.flags ++ undefDataSymbol.info.name ++
          (if undefDataSymbol.info.flags &&& symUndefinedFlag = 0 then
            encodeULEB 0 undefDataSymbol.info.dataRef.segment ++
              encodeULEB 0 undefDataSymbol.info.dataRef.offset ++
              encodeULEB 0 undefDataSymbol.info.dataRef.size
          else []) ∧
      (∀ d : WasmDataReference, undefDataSymbol.info.flags &&& symUndefinedFlag ≠ 0 →
        writeSymbolEntry SectionWriter.init ⟨{ undefDataSymbol.info with dataRef := d }⟩
          = writeSymbolEntry SectionWriter.init undefDataSymbol) :=
  c7_data_symbol_encoding SectionWriter.init undefDataSymbol rfl (by decide)

end WasmObjCopy
